import Mathlib

/-!
# Verification of the dietitian-bot core against its specification

This file shallowly embeds the core logic of the bot (`src/main.py`,
`src/db.py`, `src/config.py`) in Lean 4 and settles the frozen claims
about it.  Python strings are Lean `String`s, Python `int`/timestamps are
`Int`/`Nat`, fallible Python code (uncaught exceptions) is `Except Unit`,
and the per-user key/value fact store (`user_facts` table, accessed through
`db.get_fact` / `db.set_fact`) is a function `String → Option String`.

Modelling conventions, noted once here:
* `str.strip()` / `str.lower()` are embedded over character lists;
  `Char.toLower` only lowercases ASCII, which is sufficient for the
  ASCII keys and for the lowercase keyword tables of the source.
* `datetime` values are modelled as integer timestamps; `isoformat` /
  `fromisoformat` become decimal printing / parsing of that integer.
* `json.loads` / `json.dumps` are embedded by an executable JSON
  parser / printer over a `Json` type whose numbers are integers
  (the blobs written by this program only contain integers, strings
  and nulls); the printer uses the `", "` / `": "` separators that
  `json.dumps` uses by default.
-/

/-! ## Python string primitives -/

/-- The double-quote character. -/
def quoteC : Char := Char.ofNat 34

/-- The backslash character. -/
def backslashC : Char := Char.ofNat 92

/-- The opening curly bracket character. -/
def lbraceC : Char := Char.ofNat 123

/-- The closing curly bracket character. -/
def rbraceC : Char := Char.ofNat 125

/-- `str.strip()` on a character list: drop whitespace from both ends. -/
def stripChars (cs : List Char) : List Char :=
  ((cs.dropWhile Char.isWhitespace).reverse.dropWhile Char.isWhitespace).reverse

/-- Embedding of Python `str.strip()`. -/
def pyStrip (s : String) : String := String.mk (stripChars s.data)

/-- Embedding of Python `str.lower()` (ASCII case folding). -/
def pyLower (s : String) : String := String.mk (s.data.map Char.toLower)

/-- Does `cs` start with `pre`? -/
def startsWithL : List Char → List Char → Bool
  | _, [] => true
  | [], _ :: _ => false
  | a :: as, b :: bs => a = b && startsWithL as bs

/-- Python's substring test `needle in hay` on character lists. -/
def containsL : List Char → List Char → Bool
  | [], needle => needle.isEmpty
  | c :: rest, needle => startsWithL (c :: rest) needle || containsL rest needle

/-- Substring test on strings (`needle in hay` in Python). -/
def pyContains (hay needle : String) : Bool := containsL hay.data needle.data

/-- Split at the first colon, Python's `line.split(':', 1)`:
returns `none` when there is no colon, otherwise the parts before
and after the first colon. -/
def splitColon1 : List Char → Option (List Char × List Char)
  | [] => none
  | c :: rest =>
    if c = ':' then some ([], rest)
    else match splitColon1 rest with
      | none => none
      | some (a, b) => some (c :: a, b)

/-- Numeric value of a digit list (`int("007") = 7`). -/
def digitsVal (cs : List Char) : Nat :=
  cs.foldl (fun a c => a * 10 + (c.toNat - 48)) 0

/-- Split a character list at newlines (Python `str.split('\n')`);
the accumulator holds the current line reversed. -/
def splitLinesChars : List Char → List Char → List String
  | [], acc => [String.mk acc.reverse]
  | c :: rest, acc =>
    if c = Char.ofNat 10 then String.mk acc.reverse :: splitLinesChars rest []
    else splitLinesChars rest (c :: acc)

/-- Python `str.split('\n')`. -/
def splitLines (s : String) : List String := splitLinesChars s.data []

/-! ## The per-user fact store (`db.py`) -/

/-- The `user_facts` rows of one user: a map from fact key to fact value. -/
def Store := String → Option String

/-- The empty store (no facts recorded). -/
def Store.empty : Store := fun _ => none

/-- Embedding of `db.set_fact`: the key is stripped and lowercased, the
value stripped; an empty key or value makes the call a no-op; otherwise
the fact is upserted. -/
def set_fact (st : Store) (key value : String) : Store :=
  let k := pyLower (pyStrip key)
  let v := pyStrip value
  if k = "" || v = "" then st
  else fun q => if q = k then some v else st q

/-- Embedding of `db.get_fact`: the key is stripped and lowercased; an
empty key reads nothing. -/
def get_fact (st : Store) (key : String) : Option String :=
  let k := pyLower (pyStrip key)
  if k = "" then none else st k

/-- Embedding of `db.set_facts`: each pair goes through the same
normalisation and skip rules as `set_fact`, in order. -/
def set_facts (st : Store) (facts : List (String × String)) : Store :=
  facts.foldl (fun acc kv => set_fact acc kv.1 kv.2) st

/-- Modelled from the spec: `delete_all_facts` (imported by `main.py` from
`db`, but absent from `src/db.py`) — §6 requires “a way to delete all facts
for a user (reset)”.  It removes every fact of the user. -/
def delete_all_facts (_st : Store) : Store := fun _ => none

/-- Python truthiness of an `Optional[str]`: `None` and `""` are falsy. -/
def truthyStr : Option String → Bool
  | none => false
  | some s => s ≠ ""

/-- Python `x or default` on an `Optional[str]`. -/
def orElseStr (x : Option String) (default : String) : String :=
  match x with
  | none => default
  | some s => if s = "" then default else s

/-! ## Field parsers and the onboarding resolver (`main.py`) -/

/-- Embedding of `normalize_text`: `(s or "").strip()`. -/
def normalize_text (s : String) : String := pyStrip s

/-- Embedding of `is_reset_command`. -/
def is_reset_command (text : String) : Bool :=
  let t := pyLower (normalize_text text)
  t = "reset" || t = "/reset" || t = "сброс" || t = "заново" ||
    t = "начать заново" || t = "resetovat"

/-- The groups produced by `re.findall(r"\d{1,3}", t)`: a leftmost scan
that greedily takes up to three consecutive digits per match and resumes
after each match.  Fuelled: every step consumes at least one character,
so fuel equal to the length of the list suffices. -/
def findallD13F : Nat → List Char → List (List Char)
  | 0, _ => []
  | _ + 1, [] => []
  | fuel + 1, c :: rest =>
    if c.isDigit then
      match rest with
      | [] => [[c]]
      | d :: rest2 =>
        if d.isDigit then
          match rest2 with
          | [] => [[c, d]]
          | e :: rest3 =>
            if e.isDigit then [c, d, e] :: findallD13F fuel rest3
            else [c, d] :: findallD13F fuel rest2
        else [c] :: findallD13F fuel rest
    else findallD13F fuel rest

/-- The groups of `re.findall(r"\d{1,3}", t)` on a character list. -/
def findallD13 (cs : List Char) : List (List Char) := findallD13F cs.length cs

/-- Embedding of `parse_weight_height_age`: take the first three
`\d{1,3}` groups and range-check them as weight / height / age;
any failure fails the whole parse. -/
def parse_weight_height_age (text : String) : Option (Nat × Nat × Nat) :=
  let t := normalize_text text
  match findallD13 t.data with
  | n1 :: n2 :: n3 :: _ =>
    let w := digitsVal n1
    let h := digitsVal n2
    let a := digitsVal n3
    if !(30 ≤ w && w ≤ 350) then none
    else if !(120 ≤ h && h ≤ 230) then none
    else if !(10 ≤ a && a ≤ 100) then none
    else some (w, h, a)
  | _ => none

/-- The maximal digit runs of a character list, in left-to-right order
(the “integer runs” the spec's triple-parser property quantifies over). -/
def digitRunsF : Nat → List Char → List (List Char)
  | 0, _ => []
  | _ + 1, [] => []
  | fuel + 1, c :: rest =>
    if c.isDigit then
      (c :: rest.takeWhile Char.isDigit) :: digitRunsF fuel (rest.dropWhile Char.isDigit)
    else digitRunsF fuel rest

/-- Maximal digit runs of a character list (fuelled by the length, which
always suffices because every step consumes at least one character). -/
def digitRuns (cs : List Char) : List (List Char) := digitRunsF cs.length cs

/-- Embedding of `profile_missing`: the first empty-or-absent profile
fact in the fixed order, `none` when the profile is complete.  The three
body metrics are one step (`"wha"`). -/
def profile_missing (st : Store) : Option String :=
  let language := get_fact st "language"
  let name := get_fact st "name"
  let goal := get_fact st "goal"
  let weight := get_fact st "weight_kg"
  let height := get_fact st "height_cm"
  let age := get_fact st "age"
  let activity := get_fact st "activity"
  if !truthyStr language then some "language"
  else if !truthyStr name then some "name"
  else if !truthyStr goal then some "goal"
  else if !truthyStr weight || !truthyStr height || !truthyStr age then some "wha"
  else if !truthyStr activity then some "activity"
  else none

/-- Written from the spec's words (for the refinement claim about the
missing-field resolver): “returns the first field (in fixed order) whose
value is empty/absent, or `None` if the profile is complete”, with the
body metrics treated as the single step `"wha"` that is missing when any
of weight/height/age is empty or absent. -/
def specNextMissingField (st : Store) : Option String :=
  let isEmptyField : String → Bool := fun f =>
    if f = "wha" then
      !truthyStr (get_fact st "weight_kg") || !truthyStr (get_fact st "height_cm") ||
        !truthyStr (get_fact st "age")
    else !truthyStr (get_fact st f)
  ["language", "name", "goal", "wha", "activity"].find? isEmptyField

/-! ## JSON (`json.loads` / `json.dumps`) -/

/-- JSON values.  Numbers are restricted to integers: every blob this
program writes (`subscription`, `daily_usage`) only contains integers,
strings and nulls. -/
inductive Json where
  | null
  | bool (b : Bool)
  | num (n : Int)
  | str (s : String)
  | arr (xs : List Json)
  | obj (fields : List (String × Json))

/-- Python truthiness of a decoded JSON value (`if not sub:`). -/
def jsonTruthy : Json → Bool
  | .null => false
  | .bool b => b
  | .num n => n ≠ 0
  | .str s => s ≠ ""
  | .arr xs => !xs.isEmpty
  | .obj fs => !fs.isEmpty

/-- First value bound to a key in a decoded object (`dict.get`). -/
def objGet : List (String × Json) → String → Option Json
  | [], _ => none
  | (k2, v2) :: rest, k => if k2 = k then some v2 else objGet rest k

/-- `dict[k] = v` on a decoded object: replaces the value in place when
the key is present (keeping insertion order), appends otherwise. -/
def objSetField : List (String × Json) → String → Json → List (String × Json)
  | [], k, v => [(k, v)]
  | (k2, v2) :: rest, k, v =>
    if k2 = k then (k, v) :: rest else (k2, v2) :: objSetField rest k v

/-- Python `sub[key]` on a decoded JSON value: raises unless `sub` is an
object that has the key. -/
def pyIndex (j : Json) (key : String) : Except Unit Json :=
  match j with
  | .obj fs =>
    match objGet fs key with
    | some v => .ok v
    | none => .error ()
  | _ => .error ()

/-- Skip JSON whitespace. -/
def skipWs (cs : List Char) : List Char := cs.dropWhile Char.isWhitespace

/-- Parse the tail of a JSON string literal (the opening quote already
consumed), handling the standard escapes. -/
def parseStrLit : List Char → Option (List Char × List Char)
  | [] => none
  | c :: rest =>
    if c = quoteC then some ([], rest)
    else if c = backslashC then
      match rest with
      | [] => none
      | e :: rest2 =>
        let esc : Option Char :=
          if e = quoteC then some quoteC
          else if e = backslashC then some backslashC
          else if e = '/' then some '/'
          else if e = 'n' then some (Char.ofNat 10)
          else if e = 't' then some (Char.ofNat 9)
          else if e = 'r' then some (Char.ofNat 13)
          else if e = 'b' then some (Char.ofNat 8)
          else if e = 'f' then some (Char.ofNat 12)
          else none
        match esc with
        | none => none
        | some ch =>
          match parseStrLit rest2 with
          | none => none
          | some (s, r) => some (ch :: s, r)
    else
      match parseStrLit rest with
      | none => none
      | some (s, r) => some (c :: s, r)

/-- Parse a JSON integer (optional minus sign, then digits). -/
def parseIntLit (cs : List Char) : Option (Int × List Char) :=
  match cs with
  | c :: rest =>
    if c = '-' then
      let ds := rest.takeWhile Char.isDigit
      if ds.isEmpty then none
      else some (-(digitsVal ds : Int), rest.dropWhile Char.isDigit)
    else
      let ds := cs.takeWhile Char.isDigit
      if ds.isEmpty then none
      else some ((digitsVal ds : Int), cs.dropWhile Char.isDigit)
  | [] => none

/-- Comma-separated object members, given an already-fuelled value
parser.  `none` on malformed input or fuel exhaustion. -/
def parseMembers (pv : List Char → Option (Json × List Char)) :
    Nat → List Char → Option (List (String × Json) × List Char)
  | 0, _ => none
  | fuel + 1, cs =>
    match skipWs cs with
    | c :: rest =>
      if c = quoteC then
        match parseStrLit rest with
        | none => none
        | some (key, r1) =>
          match skipWs r1 with
          | d :: r2 =>
            if d = ':' then
              match pv r2 with
              | none => none
              | some (v, r3) =>
                match skipWs r3 with
                | e :: r4 =>
                  if e = ',' then
                    match parseMembers pv fuel r4 with
                    | none => none
                    | some (fs, r5) => some ((String.mk key, v) :: fs, r5)
                  else if e = rbraceC then some ([(String.mk key, v)], r4)
                  else none
                | [] => none
            else none
          | [] => none
      else none
    | [] => none

/-- Comma-separated array items, given an already-fuelled value parser. -/
def parseItems (pv : List Char → Option (Json × List Char)) :
    Nat → List Char → Option (List Json × List Char)
  | 0, _ => none
  | fuel + 1, cs =>
    match pv cs with
    | none => none
    | some (v, r1) =>
      match skipWs r1 with
      | e :: r2 =>
        if e = ',' then
          match parseItems pv fuel r2 with
          | none => none
          | some (vs, r3) => some (v :: vs, r3)
        else if e = ']' then some ([v], r2)
        else none
      | [] => none

/-- Recursive-descent JSON value parser, fuelled by nesting depth. -/
def parseVal : Nat → List Char → Option (Json × List Char)
  | 0, _ => none
  | fuel + 1, cs =>
    match skipWs cs with
    | [] => none
    | c :: rest =>
      if c = quoteC then
        match parseStrLit rest with
        | none => none
        | some (s, r) => some (.str (String.mk s), r)
      else if c = lbraceC then
        match skipWs rest with
        | d :: r2 =>
          if d = rbraceC then some (.obj [], r2)
          else
            match parseMembers (parseVal fuel) (fuel + 1) rest with
            | none => none
            | some (fs, r) => some (.obj fs, r)
        | [] => none
      else if c = '[' then
        match skipWs rest with
        | d :: r2 =>
          if d = ']' then some (.arr [], r2)
          else
            match parseItems (parseVal fuel) (fuel + 1) rest with
            | none => none
            | some (vs, r) => some (.arr vs, r)
        | [] => none
      else if startsWithL (c :: rest) "null".data then some (.null, rest.drop 3)
      else if startsWithL (c :: rest) "true".data then some (.bool true, rest.drop 3)
      else if startsWithL (c :: rest) "false".data then some (.bool false, rest.drop 4)
      else
        match parseIntLit (c :: rest) with
        | none => none
        | some (n, r) => some (.num n, r)

/-- Embedding of `json.loads` restricted to the integer-numbered JSON of
this program: `none` models a raised decoding error (which every caller
in the source catches). -/
def jsonParse (s : String) : Option Json :=
  match parseVal (s.length + 2) s.data with
  | none => none
  | some (j, rest) => if skipWs rest = [] then some j else none

/-- Escape one character for a JSON string literal (quote and backslash;
the blobs this program writes contain no control characters). -/
def jsonEscapeChar (c : Char) : List Char :=
  if c = quoteC then [backslashC, quoteC]
  else if c = backslashC then [backslashC, backslashC]
  else [c]

/-- A JSON string literal for `s`. -/
def jsonQuote (s : String) : String :=
  String.mk (quoteC :: (s.data.map jsonEscapeChar).flatten ++ [quoteC])

/-- Fuelled embedding of `json.dumps` with its default separators
(`", "` between members, `": "` between key and value). -/
def jsonDumpF : Nat → Json → String
  | 0, _ => ""
  | fuel + 1, j =>
    match j with
    | .null => "null"
    | .bool b => cond b "true" "false"
    | .num n => toString n
    | .str s => jsonQuote s
    | .arr xs => "[" ++ String.intercalate ", " (xs.map (jsonDumpF fuel)) ++ "]"
    | .obj fs =>
      String.mk [lbraceC] ++
        String.intercalate ", "
          (fs.map fun kv => jsonQuote kv.1 ++ ": " ++ jsonDumpF fuel kv.2) ++
        String.mk [rbraceC]

/-! ## Time, configuration and the subscription store (`main.py`) -/

/-- The ambient configuration and clock of one handler invocation:
`ADMIN_IDS`, `BASIC_DAILY_PHOTO_LIMIT`, `datetime.now()` (an integer
timestamp, in seconds) and `datetime.now().strftime("%Y-%m-%d")`. -/
structure Env where
  adminIds : List Int
  basicDailyPhotoLimit : Int
  now : Int
  today : String

/-- `datetime.isoformat` in the integer-timestamp model of time. -/
def isoformat (t : Int) : String := toString t

/-- `datetime.fromisoformat` in the integer-timestamp model of time;
`none` models the raised `ValueError`/`TypeError`.  (Implemented over the
character list so that it evaluates by kernel reduction.) -/
def fromisoformat (s : String) : Option Int :=
  match s.data with
  | [] => none
  | c :: rest =>
    if c = '-' then
      if rest.isEmpty || !rest.all Char.isDigit then none
      else some (-(digitsVal rest : Int))
    else if (c :: rest).all Char.isDigit then some ((digitsVal (c :: rest) : Int))
    else none

/-- `timedelta(days=31)` in seconds. -/
def days31 : Int := 31 * 86400

/-- Embedding of `get_subscription`: an absent or falsy blob reads as no
record; a blob that fails to decode also reads as no record (the raised
decoding error is caught). -/
def get_subscription (st : Store) : Option Json :=
  match get_fact st "subscription" with
  | none => none
  | some s => if s = "" then none else jsonParse s

/-- Embedding of `set_subscription`: serialise the five-field record and
upsert it under the `subscription` fact (fuel 3 covers the flat record). -/
def set_subscription (env : Env) (st : Store) (plan : String) (expiresAt : Int)
    (stripeCustomerId stripeSubscriptionId : Option String) : Store :=
  let jOptStr : Option String → Json := fun o =>
    match o with
    | none => .null
    | some s => .str s
  set_fact st "subscription"
    (jsonDumpF 3 (.obj
      [("plan", .str plan),
       ("expires_at", .str (isoformat expiresAt)),
       ("stripe_customer_id", jOptStr stripeCustomerId),
       ("stripe_subscription_id", jOptStr stripeSubscriptionId),
       ("created_at", .str (isoformat env.now))]))

/-- Embedding of `check_subscription_valid`.  `Except.error` models an
uncaught exception (a record without the expected fields). -/
def check_subscription_valid (env : Env) (st : Store) (userId : Int) :
    Except Unit (Bool × Json) :=
  if userId ∈ env.adminIds then .ok (true, .str "admin")
  else
    match get_subscription st with
    | none => .ok (false, .str "subscription_required")
    | some sub =>
      if !jsonTruthy sub then .ok (false, .str "subscription_required")
      else
        match pyIndex sub "expires_at" with
        | .error e => .error e
        | .ok eaJson =>
          match eaJson with
          | .str eaStr =>
            match fromisoformat eaStr with
            | none => .error ()
            | some expiresAt =>
              if env.now > expiresAt then .ok (false, .str "subscription_expired")
              else
                match pyIndex sub "plan" with
                | .error e => .error e
                | .ok plan => .ok (true, plan)
          | _ => .error ()

/-- Embedding of `get_daily_photo_count`: absent, undecodable, non-dict
or stale-dated usage reads as zero; the raised errors are caught. -/
def get_daily_photo_count (env : Env) (st : Store) : Json :=
  match get_fact st "daily_usage" with
  | none => .num 0
  | some s =>
    if s = "" then .num 0
    else
      match jsonParse s with
      | none => .num 0
      | some u =>
        match u with
        | .obj fs =>
          match objGet fs "date" with
          | some (.str d) =>
            if d = env.today then
              match objGet fs "photo_count" with
              | some v => v
              | none => .num 0
            else .num 0
          | _ => .num 0
        | _ => .num 0

/-- Embedding of `increment_photo_count`: decode the stored usage blob,
bump `photo_count` when the date matches today, otherwise (or on any
decoding/type error, which is caught) start a fresh record for today. -/
def increment_photo_count (env : Env) (st : Store) : Store :=
  let freshUsage : Json := .obj [("date", .str env.today), ("photo_count", .num 1)]
  let usage : Json :=
    match get_fact st "daily_usage" with
    | none => freshUsage
    | some s =>
      if s = "" then freshUsage
      else
        match jsonParse s with
        | none => freshUsage
        | some u =>
          match u with
          | .obj fs =>
            match objGet fs "date" with
            | some (.str d) =>
              if d = env.today then
                match objGet fs "photo_count" with
                | some (.num n) => .obj (objSetField fs "photo_count" (.num (n + 1)))
                | some (.bool b) =>
                  .obj (objSetField fs "photo_count" (.num ((cond b 1 0) + 1)))
                | some _ => freshUsage
                | none => .obj (objSetField fs "photo_count" (.num 1))
              else freshUsage
            | _ => freshUsage
          | _ => freshUsage
  set_fact st "daily_usage"
    (jsonDumpF ((get_fact st "daily_usage").elim 0 String.length + 4) usage)

/-- Embedding of `can_analyze_photo`. -/
def can_analyze_photo (env : Env) (st : Store) (userId : Int) :
    Except Unit (Bool × Option Json) :=
  if userId ∈ env.adminIds then .ok (true, none)
  else
    match check_subscription_valid env st userId with
    | .error e => .error e
    | .ok (isValid, planOrError) =>
      if !isValid then .ok (false, some planOrError)
      else
        let unlimited : Bool :=
          match planOrError with
          | .str p => p = "premium" || p = "trial" || p = "admin" || p = "granted"
          | _ => false
        if unlimited then .ok (true, none)
        else
          match get_daily_photo_count env st with
          | .num count =>
            if count ≥ env.basicDailyPhotoLimit then
              .ok (false, some (.str "photo_limit_reached"))
            else .ok (true, none)
          | .bool b =>
            if (cond b 1 0 : Int) ≥ env.basicDailyPhotoLimit then
              .ok (false, some (.str "photo_limit_reached"))
            else .ok (true, none)
          | _ => .error ()

/-! ## The checkout-completed webhook branch (`handle_stripe_webhook`) -/

/-- The data the `checkout.session.completed` branch extracts from the
event: `int(session["metadata"].get("user_id", 0))`,
`session["metadata"].get("plan", "basic")`, `session.get("customer")`
and `session.get("subscription")`. -/
structure CheckoutSession where
  userId : Int
  plan : String
  customer : Option String
  subscriptionRef : Option String

/-- Embedding of the `checkout.session.completed` branch of
`handle_stripe_webhook`: for a nonzero user id, set the subscription to
the chosen plan expiring 31 days from now. -/
def handle_checkout_completed (env : Env) (ev : CheckoutSession) (st : Store) : Store :=
  if ev.userId ≠ 0 then
    set_subscription env st ev.plan (env.now + days31) ev.customer ev.subscriptionRef
  else st

/-! ## Localised texts consulted by the embedded handlers (`TEXTS`) -/

/-- The rows of the `TEXTS` table that the embedded handlers consult
(the goal values stored by the goal classifier), transcribed from the
source. -/
def TEXTS (lang key : String) : Option String :=
  if lang = "ru" then
    if key = "goal_lose_value" then some "похудеть"
    else if key = "goal_gain_value" then some "набрать массу"
    else if key = "goal_maintain_value" then some "поддерживать"
    else none
  else if lang = "cs" then
    if key = "goal_lose_value" then some "zhubnout"
    else if key = "goal_gain_value" then some "nabrat"
    else if key = "goal_maintain_value" then some "udržovat"
    else none
  else if lang = "en" then
    if key = "goal_lose_value" then some "lose weight"
    else if key = "goal_gain_value" then some "gain muscle"
    else if key = "goal_maintain_value" then some "maintain"
    else none
  else none

/-- Embedding of `get_text_lang`:
`TEXTS.get(lang, TEXTS["ru"])`, then `texts.get(key, TEXTS["ru"].get(key, ""))`. -/
def get_text_lang (lang key : String) : String :=
  let l := if lang = "ru" || lang = "cs" || lang = "en" then lang else "ru"
  match TEXTS l key with
  | some t => t
  | none =>
    match TEXTS "ru" key with
    | some t => t
    | none => ""

/-! ## Onboarding text handlers (`onboarding_goal_text`, `onboarding_wha`) -/

/-- The FSM state the handler leaves the conversation in (`aiogram`
states of the `Onboarding` group; `cleared` is `state.clear()`). -/
inductive FsmState where
  | waiting_name
  | waiting_goal
  | waiting_whA
  | waiting_activity
  | cleared
deriving DecidableEq

/-- The goal-keyword lists of `onboarding_goal_text`, in match order:
a lose keyword wins over a gain keyword; anything else falls through to
the maintain branch. -/
def loseKws : List String := ["похуд", "сброс", "lose", "zhubn"]

/-- The gain-goal keywords of `onboarding_goal_text`. -/
def gainKws : List String := ["наб", "мыш", "gain", "nabr"]

/-- Embedding of `onboarding_goal_text` (the free-text goal handler):
reset wipes everything; otherwise the text is classified by keyword
containment, the resulting goal value is persisted, and the conversation
advances to the body-metrics state. -/
def onboarding_goal_text (st : Store) (text : String) : Store × FsmState :=
  if is_reset_command text then (delete_all_facts st, .cleared)
  else
    let user_lang := orElseStr (get_fact st "language") "ru"
    let goal_text := pyLower (normalize_text text)
    let goal :=
      if loseKws.any (fun x => pyContains goal_text x) then
        get_text_lang user_lang "goal_lose_value"
      else if gainKws.any (fun x => pyContains goal_text x) then
        get_text_lang user_lang "goal_gain_value"
      else get_text_lang user_lang "goal_maintain_value"
    (set_fact st "goal" goal, .waiting_whA)

/-- Embedding of `onboarding_wha` (the body-metrics handler): reset
wipes everything; a failed triple parse answers `wha_invalid` and leaves
the store and state unchanged; a successful parse persists all three
fields in one `set_facts` call and advances to the activity state. -/
def onboarding_wha (st : Store) (text : String) : Store × FsmState :=
  if is_reset_command text then (delete_all_facts st, .cleared)
  else
    match parse_weight_height_age text with
    | none => (st, .waiting_whA)
    | some (w, h, a) =>
      (set_facts st
        [("weight_kg", toString w), ("height_cm", toString h), ("age", toString a)],
       .waiting_activity)

/-! ## Nutrition analysis pipeline (`analyze_food_photo`) -/

/-- First `\d+` match of a line, as a number (`re.findall(r'(\d+)', line)[0]`). -/
def firstDigitRun : List Char → Option Nat
  | [] => none
  | c :: rest =>
    if c.isDigit then some (digitsVal (c :: rest.takeWhile Char.isDigit))
    else firstDigitRun rest

/-- A Python float holding an exact decimal: the value is
`num / 10 ^ scale`.  The decimals the regex `\d+\.?\d*` extracts, and
the arithmetic the pipeline performs on them (multiplication by small
integers, addition, `int()` truncation, comparison with zero), are exact
at these magnitudes, so the exact-decimal model coincides with IEEE
evaluation on every value the claims touch. -/
structure PyFloat where
  num : Int
  scale : Nat
deriving DecidableEq

/-- `float == 0` (value equality with zero). -/
def PyFloat.isZero (x : PyFloat) : Bool := x.num = 0

/-- Multiplication of a float by a small integer constant. -/
def PyFloat.mulNat (x : PyFloat) (k : Nat) : PyFloat := ⟨x.num * k, x.scale⟩

/-- Addition of two floats (align the decimal scales). -/
def PyFloat.add (x y : PyFloat) : PyFloat :=
  let m := max x.scale y.scale
  ⟨x.num * ((10 : Int) ^ (m - x.scale)) + y.num * ((10 : Int) ^ (m - y.scale)), m⟩

/-- Python `int()` on a non-negative float: truncation. -/
def PyFloat.toIntTrunc (x : PyFloat) : Int := x.num / ((10 : Int) ^ x.scale)

/-- First `\d+\.?\d*` match of a line
(`float(re.findall(r'(\d+\.?\d*)', line)[0])`), as an exact decimal. -/
def firstFloatRun : List Char → Option PyFloat
  | [] => none
  | c :: rest =>
    if c.isDigit then
      let ds := c :: rest.takeWhile Char.isDigit
      let after := rest.dropWhile Char.isDigit
      match after with
      | dot :: rest2 =>
        if dot = '.' then
          let fs := rest2.takeWhile Char.isDigit
          some ⟨(digitsVal ds : Int) * ((10 : Int) ^ fs.length) + (digitsVal fs : Int),
                fs.length⟩
        else some ⟨(digitsVal ds : Int), 0⟩
      | [] => some ⟨(digitsVal ds : Int), 0⟩
    else firstFloatRun rest

/-- The label keywords of the reply-scanning loop, transcribed in the
source's `elif` order. -/
def nameKws : List String := ["название:", "name:", "блюдо:", "dish:", "jídlo:", "název:"]

/-- Portion/weight label keywords. -/
def portionKws : List String := ["порция:", "portion:", "вес:", "weight:", "porce:", "váha:"]

/-- Calorie label keywords. -/
def calKws : List String := ["ккал:", "kcal:", "калории:", "calories:", "kalorie:"]

/-- Protein label keywords. -/
def protKws : List String := ["белки:", "белок:", "protein:", "bílkoviny:"]

/-- Fat label keywords. -/
def fatKws : List String := ["жиры:", "жир:", "fat:", "fats:", "tuky:"]

/-- Carbohydrate label keywords. -/
def carbKws : List String := ["углеводы:", "carbs:", "carbohydrates:", "sacharidy:"]

/-- The fields the reply-scanning loop accumulates, with the source's
defaults (`food_name = "Блюдо"`, `weight_g = 250`, macros zero). -/
structure ParsedReply where
  food_name : String
  weight_g : Int
  calories : Int
  protein : PyFloat
  fat : PyFloat
  carbs : PyFloat
deriving DecidableEq

/-- The initial `ParsedReply` (the source's defaults before the loop). -/
def initParsed : ParsedReply :=
  { food_name := "Блюдо", weight_g := 250, calories := 0,
    protein := ⟨0, 0⟩, fat := ⟨0, 0⟩, carbs := ⟨0, 0⟩ }

/-- One iteration of the reply-scanning loop: classify the line by the
first keyword list that matches its lowercased, stripped form, then
extract the name after the colon or the first numeric token. -/
def scanLine (p : ParsedReply) (line : String) : ParsedReply :=
  let ll := pyStrip (pyLower line)
  let has : List String → Bool := fun kws => kws.any (fun k => pyContains ll k)
  if has nameKws then
    match splitColon1 line.data with
    | some (_, after) => { p with food_name := pyStrip (String.mk after) }
    | none => p
  else if has portionKws then
    match firstDigitRun line.data with
    | some n => { p with weight_g := if (n : Int) < 10 then 250 else (n : Int) }
    | none => p
  else if has calKws then
    match firstDigitRun line.data with
    | some n => { p with calories := (n : Int) }
    | none => p
  else if has protKws then
    match firstFloatRun line.data with
    | some q => { p with protein := q }
    | none => p
  else if has fatKws then
    match firstFloatRun line.data with
    | some q => { p with fat := q }
    | none => p
  else if has carbKws then
    match firstFloatRun line.data with
    | some q => { p with carbs := q }
    | none => p
  else p

/-- The reply-scanning loop over the lines of the model reply. -/
def parseReply (result : String) : ParsedReply :=
  (splitLines result).foldl scanLine initParsed

/-- The recommendation-section keywords. -/
def recKws : List String := ["рекоменд", "recommend", "doporuč", "советы", "tips"]

/-- The recommendation-collecting loop of `analyze_food_photo`. -/
def recLoop : List String → Bool → List String → List String
  | [], _, acc => acc.reverse
  | line :: rest, started, acc =>
    let ll := pyLower line
    if recKws.any (fun k => pyContains ll k) then
      let acc2 :=
        match splitColon1 line.data with
        | some (_, after) =>
          let a := pyStrip (String.mk after)
          if a ≠ "" then a :: acc else acc
        | none => acc
      recLoop rest true acc2
    else if started && pyStrip line ≠ "" then recLoop rest started (pyStrip line :: acc)
    else recLoop rest started acc

/-- The recommendations text assembled from the model reply. -/
def recommendationsOf (result : String) : String :=
  String.intercalate "\n" (recLoop (splitLines result) false [])

/-- Is one of the calorie words (`ккал|kcal|калор`) at this position? -/
def kcalWordAt (cs : List Char) : Bool :=
  startsWithL cs "ккал".data || startsWithL cs "kcal".data || startsWithL cs "калор".data

/-- Try to match `\d{2,4}\s*(?:ккал|kcal|калор)` with a digit group of
exactly `l` characters at the current position. -/
def tryKcalLen (cs : List Char) (l : Nat) : Option Nat :=
  let g := cs.take l
  if g.length = l && g.all Char.isDigit &&
      kcalWordAt ((cs.drop l).dropWhile Char.isWhitespace) then
    some (digitsVal g)
  else none

/-- First match of `re.findall(r'(\d{2,4})\s*(?:ккал|kcal|калор)', ·)`:
a leftmost scan that, at each position, tries the greedy group lengths
4, 3, 2 in backtracking order. -/
def firstKcalNum : List Char → Option Nat
  | [] => none
  | c :: rest =>
    match tryKcalLen (c :: rest) 4 with
    | some n => some n
    | none =>
      match tryKcalLen (c :: rest) 3 with
      | some n => some n
      | none =>
        match tryKcalLen (c :: rest) 2 with
        | some n => some n
        | none => firstKcalNum rest

/-- What `analyze_food_photo` hands back to the photo handler: a
rendered food card (`format_food_card` plus the recommendation block), the
unrecognised fallback `"🤔 {result}"` carrying the raw model text, or one
of the fixed texts (`photo_not_recognized`, `photo_error`). -/
inductive AnalyzeResult where
  | card (food_name : String) (calories : Int) (protein fat carbs : PyFloat)
      (weight_g : Int) (recommendations : String)
  | unrecognized (raw : String)
  | textKey (key : String)
deriving DecidableEq

/-- The reply-processing core of `analyze_food_photo` (everything after
the model call): scan the labelled lines, collect recommendations,
repair an implausibly small calorie reading, and either return the
unrecognised fallback (all four macros zero) or render the card. -/
def analyzeReply (raw : String) : AnalyzeResult :=
  let result := pyStrip raw
  if result = "" then .textKey "photo_not_recognized"
  else
    let p := parseReply result
    let recs := recommendationsOf result
    let calories : Int :=
      if p.calories < 20 then
        match firstKcalNum (pyLower result).data with
        | some n => (n : Int)
        | none =>
          let est : Int :=
            (((p.protein.mulNat 4).add (p.fat.mulNat 9)).add (p.carbs.mulNat 4)).toIntTrunc
          if est < 50 then 200 else est
      else p.calories
    if calories = 0 ∧ p.protein.isZero ∧ p.fat.isZero ∧ p.carbs.isZero then
      .unrecognized result
    else .card p.food_name calories p.protein p.fat p.carbs p.weight_g recs

/-- Embedding of `analyze_food_photo`: its whole body runs inside
`try/except`, so a failed model call (timeout, API error — the
`Except.error` input) is caught and becomes the `photo_error` text; it
never raises to its caller. -/
def analyze_food_photo (modelReply : Except Unit String) : AnalyzeResult :=
  match modelReply with
  | .error _ => .textKey "photo_error"
  | .ok raw => analyzeReply raw

/-! ## The photo handler (`handle_photo`) -/

/-- The observable outcome of one photo event. -/
inductive PhotoOutcome where
  | completeProfileFirst
  | entitlementRefused (reason : Option Json)
  | crashed
  | processError
  | replied (r : AnalyzeResult)

/-- Embedding of `handle_photo`: gate on profile completeness, then on
`can_analyze_photo` (an exception there escapes the handler, `crashed`);
inside the `try` block a failed download becomes `photo_process_error`
with no counter change, while `analyze_food_photo`'s result — success or
not — is followed by an unconditional `increment_photo_count`. -/
def handle_photo (env : Env) (st : Store) (userId : Int)
    (download : Except Unit Unit) (modelReply : Except Unit String) :
    Store × PhotoOutcome :=
  if profile_missing st ≠ none then (st, .completeProfileFirst)
  else
    match can_analyze_photo env st userId with
    | .error _ => (st, .crashed)
    | .ok (canA, errKey) =>
      if !canA then (st, .entitlementRefused errKey)
      else
        match download with
        | .error _ => (st, .processError)
        | .ok _ =>
          let result := analyze_food_photo modelReply
          let st2 := increment_photo_count env st
          (st2, .replied result)

set_option maxRecDepth 40000

/-! ## Concrete fixtures used by witnesses and counterexamples -/

/-- A configuration with no admins, the default daily limit of 10, and a
fixed clock. -/
def envPhoto : Env :=
  { adminIds := [], basicDailyPhotoLimit := 10, now := 100, today := "2026-10-12" }

/-- A complete profile (every onboarding fact filled). -/
def stProfile : Store :=
  set_facts Store.empty
    [("language", "ru"), ("name", "Алекс"), ("goal", "похудеть"),
     ("weight_kg", "114"), ("height_cm", "182"), ("age", "49"),
     ("activity", "средняя")]

/-- A complete profile holding a valid basic subscription (expiring well
after `envPhoto.now`) and no usage record. -/
def stCompleteBasic : Store :=
  set_subscription envPhoto stProfile "basic" 99999 none none

/-! ## C1 — quota increment on failed analyses -/

/-- Claim C1 (code bug evidence): for a complete-profile user with a
valid basic subscription and a zero count, a photo event whose model
call raises (`analyze_food_photo` receives `Except.error`, i.e. a
timeout or API error) is answered with the `photo_error` text — a failed
analysis — and yet `handle_photo` increments the daily photo counter
from 0 to 1, contradicting the claim that a failed analysis never
increments the counter. -/
theorem handle_photo_increments_on_failed_analysis :
    (handle_photo envPhoto stCompleteBasic 7 (.ok ()) (.error ())).2
        = .replied (.textKey "photo_error")
    ∧ get_daily_photo_count envPhoto stCompleteBasic = .num 0
    ∧ get_daily_photo_count envPhoto
        (handle_photo envPhoto stCompleteBasic 7 (.ok ()) (.error ())).1 = .num 1 :=
  ⟨rfl, rfl, rfl⟩

/-! ## C2 — all-zero macro replies still render a card -/

/-- A model reply whose four macro lines all carry the value zero. -/
def allZeroReply : String := "ккал: 0\nбелки: 0\nжиры: 0\nуглеводы: 0"

/-- Claim C2 (code bug evidence): on a reply whose four macro fields all
parse to zero, the calorie-repair step (which runs before the all-zero
check) replaces the zero calories with the default 200, so
`analyze_food_photo` renders a card instead of returning the
unrecognized result the claim requires. -/
theorem analyzeReply_all_zero_macros_renders_card :
    (parseReply allZeroReply).calories = 0
    ∧ (parseReply allZeroReply).protein.isZero = true
    ∧ (parseReply allZeroReply).fat.isZero = true
    ∧ (parseReply allZeroReply).carbs.isZero = true
    ∧ analyzeReply allZeroReply
        = .card "Блюдо" 200 ⟨0, 0⟩ ⟨0, 0⟩ ⟨0, 0⟩ 250 "" :=
  ⟨rfl, rfl, rfl, rfl, rfl⟩

/-! ## C3 — checkout-webhook replay -/

/-- The clock of the first webhook delivery (time 0). -/
def envW1 : Env := { adminIds := [], basicDailyPhotoLimit := 10, now := 0, today := "d" }

/-- The clock of the replayed delivery, one day later. -/
def envW2 : Env := { adminIds := [], basicDailyPhotoLimit := 10, now := 86400, today := "d" }

/-- A concrete checkout-completed event. -/
def evW : CheckoutSession :=
  { userId := 7, plan := "basic", customer := some "cus_x", subscriptionRef := some "sub_x" }

/-- The `expires_at` field of the stored subscription record. -/
def expiresAtOf (st : Store) : Option Json :=
  match get_subscription st with
  | some sub =>
    match pyIndex sub "expires_at" with
    | .ok v => some v
    | .error _ => none
  | none => none

/-- Claim C3 counterexample: applying the checkout-completed handler
once at time 0 stores `expires_at` 0 + 31 days, while replaying the
identical event one day later overwrites it with 86400 + 31 days — the
replay does not leave the same `expires_at` as a single application. -/
theorem checkout_replay_at_later_time_changes_expiry :
    expiresAtOf (handle_checkout_completed envW1 evW Store.empty) = some (.str "2678400")
    ∧ expiresAtOf (handle_checkout_completed envW2 evW
        (handle_checkout_completed envW1 evW Store.empty)) = some (.str "2764800")
    ∧ expiresAtOf (handle_checkout_completed envW2 evW
          (handle_checkout_completed envW1 evW Store.empty))
        ≠ expiresAtOf (handle_checkout_completed envW1 evW Store.empty) := by
  refine ⟨rfl, rfl, fun h => ?_⟩
  have h2 : (some (Json.str "2764800") : Option Json) = some (Json.str "2678400") := h
  simp at h2

/-- A drop-while cannot empty a list that holds an element failing the
predicate. -/
theorem dropWhile_ne_nil_of_mem {p : Char → Bool} {x : Char} {xs : List Char}
    (hx : x ∈ xs) (hp : p x = false) : xs.dropWhile p ≠ [] := by
  intro h
  have := (List.dropWhile_eq_nil_iff).1 h x hx
  simp [hp] at this

/-- Stripping a string whose character list starts with a non-whitespace
character leaves it non-empty. -/
theorem stripChars_cons_ne_nil {l : Char} {rest : List Char}
    (hl : l.isWhitespace = false) : stripChars (l :: rest) ≠ [] := by
  unfold stripChars
  rw [List.dropWhile_cons_of_neg (by simp [hl])]
  intro h
  rw [List.reverse_eq_nil_iff] at h
  exact dropWhile_ne_nil_of_mem (x := l)
    (by simp) hl h

/-- The serialised subscription record is non-empty after stripping
(it starts with an opening brace). -/
theorem pyStrip_dump_obj_ne_empty (f : Nat) (fs : List (String × Json)) :
    pyStrip (jsonDumpF (f + 1) (Json.obj fs)) ≠ "" := by
  intro h
  have hd : stripChars (jsonDumpF (f + 1) (Json.obj fs)).data = [] :=
    congrArg String.data h
  have hform : (jsonDumpF (f + 1) (Json.obj fs)).data
      = lbraceC :: ((String.intercalate ", "
          (fs.map fun kv => jsonQuote kv.1 ++ ": " ++ jsonDumpF f kv.2)).data
            ++ [rbraceC]) := by
    show (String.mk [lbraceC] ++ _ ++ String.mk [rbraceC]).data = _
    rw [String.data_append, String.data_append]
    rfl
  rw [hform] at hd
  exact stripChars_cons_ne_nil (by decide) hd

/-- Writing the same key twice keeps only the second value when the
second value survives the empty-value skip. -/
theorem set_fact_overwrite (st : Store) (key v1 v2 : String) (k : String)
    (hv2 : pyStrip v2 ≠ "") :
    set_fact (set_fact st key v1) key v2 k = set_fact st key v2 k := by
  unfold set_fact
  by_cases hk : pyLower (pyStrip key) = ""
  · simp [hk]
  · by_cases hv1 : pyStrip v1 = ""
    · simp [hk, hv1]
    · simp [hk, hv1, hv2]
      by_cases hkk : k = pyLower (pyStrip key) <;> simp [hkk]

/-- Claim C3 (amended): replaying a checkout-completed event *sets* the
subscription record — the store after the replay is, fact for fact, the
store a single application at the replay time produces (so a same-time
replay is idempotent, and a replay never adds a delta on top of the
stored expiry; it recomputes the expiry from its own clock). -/
theorem checkout_replay_overwrites (env1 env2 : Env) (ev : CheckoutSession)
    (st : Store) (k : String) :
    handle_checkout_completed env2 ev (handle_checkout_completed env1 ev st) k
      = handle_checkout_completed env2 ev st k := by
  unfold handle_checkout_completed
  by_cases hu : ev.userId ≠ 0
  · simp only [if_pos hu]
    unfold set_subscription
    exact set_fact_overwrite st "subscription" _ _ k (pyStrip_dump_obj_ne_empty 2 _)
  · simp [if_neg hu]

/-- Witness for the amended C3 theorem at a concrete event, store and
pair of clocks. -/
theorem checkout_replay_overwrites_witness :
    handle_checkout_completed envW2 evW
        (handle_checkout_completed envW1 evW Store.empty) "subscription"
      = handle_checkout_completed envW2 evW Store.empty "subscription" :=
  checkout_replay_overwrites envW1 envW2 evW Store.empty "subscription"

/-! ## C4 — the missing-field resolver -/

/-- Claim C4: for every profile store, `profile_missing` returns the
first empty-or-absent field in the fixed order language, name, goal,
body metrics (`"wha"`, covering weight/height/age), activity — stated as
agreement with `specNextMissingField`, the definition written from the
spec's words — and returns `none` if and only if every profile field is
non-empty (an absent fact and an empty string are both non-fields). -/
theorem profile_missing_first_in_order (st : Store) :
    profile_missing st = specNextMissingField st
    ∧ (profile_missing st = none ↔
        (truthyStr (get_fact st "language") = true
         ∧ truthyStr (get_fact st "name") = true
         ∧ truthyStr (get_fact st "goal") = true
         ∧ truthyStr (get_fact st "weight_kg") = true
         ∧ truthyStr (get_fact st "height_cm") = true
         ∧ truthyStr (get_fact st "age") = true
         ∧ truthyStr (get_fact st "activity") = true)) := by
  unfold profile_missing specNextMissingField
  cases h1 : truthyStr (get_fact st "language") <;>
  cases h2 : truthyStr (get_fact st "name") <;>
  cases h3 : truthyStr (get_fact st "goal") <;>
  cases h4 : truthyStr (get_fact st "weight_kg") <;>
  cases h5 : truthyStr (get_fact st "height_cm") <;>
  cases h6 : truthyStr (get_fact st "age") <;>
  cases h7 : truthyStr (get_fact st "activity") <;>
    simp [h1, h2, h3, h4, h5, h6, h7, List.find?]

/-! ## C5 — the weight/height/age triple parser -/

/-- Fuel does not matter for `findallD13F` once it covers the input
length (every step consumes at least one character). -/
theorem findallD13F_fuel_irrel (f1 : Nat) : ∀ (f2 : Nat) (cs : List Char),
    cs.length ≤ f1 → cs.length ≤ f2 → findallD13F f1 cs = findallD13F f2 cs := by
  induction f1 with
  | zero =>
    intro f2 cs h1 _
    have hcs : cs = [] := List.eq_nil_of_length_eq_zero (Nat.le_zero.1 h1)
    subst hcs
    cases f2 <;> rfl
  | succ f ih =>
    intro f2 cs h1 h2
    cases cs with
    | nil => cases f2 <;> rfl
    | cons c rest =>
      cases f2 with
      | zero => simp at h2
      | succ g =>
        simp only [findallD13F]
        by_cases hc : c.isDigit
        · cases rest with
          | nil => simp [hc]
          | cons d rest2 =>
            by_cases hd : d.isDigit
            · cases rest2 with
              | nil => simp [hc, hd]
              | cons e rest3 =>
                by_cases he : e.isDigit
                · simp only [hc, hd, he, if_true]
                  rw [ih g rest3 (by simp at h1 ⊢; omega) (by simp at h2 ⊢; omega)]
                · simp [hc, hd, he]
                  rw [ih g (e :: rest3) (by simp at h1 ⊢; omega) (by simp at h2 ⊢; omega)]
            · simp [hc, hd]
              rw [ih g (d :: rest2) (by simp at h1 ⊢; omega) (by simp at h2 ⊢; omega)]
        · simp only [hc, Bool.false_eq_true, if_false]
          exact ih g rest (by simp at h1 ⊢; omega) (by simp at h2 ⊢; omega)

/-- The `\d{1,3}` scan skips a leading non-digit. -/
theorem findallD13_cons_nondigit {c : Char} (cs : List Char) (hc : c.isDigit = false) :
    findallD13 (c :: cs) = findallD13 cs := by
  show findallD13F (cs.length + 1) (c :: cs) = _
  simp only [findallD13F, hc, Bool.false_eq_true, if_false]
  rfl

/-- The `\d{1,3}` scan consumes a one-digit run whole when the next
character (if any) is not a digit. -/
theorem findallD13_run1 {a : Char} (cs : List Char) (ha : a.isDigit = true)
    (hcs : ∀ x xs2, cs = x :: xs2 → x.isDigit = false) :
    findallD13 (a :: cs) = [a] :: findallD13 cs := by
  show findallD13F (cs.length + 1) (a :: cs) = _
  cases cs with
  | nil =>
    simp only [findallD13F, ha, if_true]
    rfl
  | cons x xs =>
    have hx := hcs x xs rfl
    simp only [findallD13F, ha, if_true, hx, Bool.false_eq_true, if_false]
    rw [findallD13_cons_nondigit xs hx]
    rfl

/-- The `\d{1,3}` scan consumes a two-digit run whole. -/
theorem findallD13_run2 {a b : Char} (cs : List Char) (ha : a.isDigit = true)
    (hb : b.isDigit = true)
    (hcs : ∀ x xs2, cs = x :: xs2 → x.isDigit = false) :
    findallD13 (a :: b :: cs) = [a, b] :: findallD13 cs := by
  show findallD13F (cs.length + 2) (a :: b :: cs) = _
  cases cs with
  | nil =>
    simp only [findallD13F, ha, hb, if_true]
    rfl
  | cons x xs =>
    have hx := hcs x xs rfl
    simp only [findallD13F, ha, hb, if_true, hx, Bool.false_eq_true, if_false]
    rw [findallD13_cons_nondigit xs hx]
    rw [findallD13F_fuel_irrel (x :: xs).length xs.length xs (by simp) le_rfl]
    rfl

/-- The `\d{1,3}` scan consumes a three-digit run whole. -/
theorem findallD13_run3 {a b c : Char} (cs : List Char) (ha : a.isDigit = true)
    (hb : b.isDigit = true) (hc : c.isDigit = true) :
    findallD13 (a :: b :: c :: cs) = [a, b, c] :: findallD13 cs := by
  show findallD13F (cs.length + 3) (a :: b :: c :: cs) = _
  simp only [findallD13F, ha, hb, hc, if_true]
  rw [findallD13F_fuel_irrel (cs.length + 2) cs.length cs (by omega) le_rfl]
  rfl

/-- Dropping a prefix cannot lengthen a list. -/
theorem dropWhileLengthLe (p : Char → Bool) : ∀ l : List Char,
    (l.dropWhile p).length ≤ l.length := by
  intro l
  induction l with
  | nil => simp
  | cons a as ih =>
    by_cases hpa : p a
    · rw [List.dropWhile_cons_of_pos hpa]
      exact le_trans ih (by simp)
    · rw [List.dropWhile_cons_of_neg hpa]

/-- Fuel does not matter for `digitRunsF` once it covers the input
length. -/
theorem digitRunsF_fuel_irrel (f1 : Nat) : ∀ (f2 : Nat) (cs : List Char),
    cs.length ≤ f1 → cs.length ≤ f2 → digitRunsF f1 cs = digitRunsF f2 cs := by
  induction f1 with
  | zero =>
    intro f2 cs h1 _
    have hcs : cs = [] := List.eq_nil_of_length_eq_zero (Nat.le_zero.1 h1)
    subst hcs
    cases f2 <;> rfl
  | succ f ih =>
    intro f2 cs h1 h2
    cases cs with
    | nil => cases f2 <;> rfl
    | cons c rest =>
      cases f2 with
      | zero => simp at h2
      | succ g =>
        simp only [digitRunsF]
        by_cases hc : c.isDigit
        · simp only [hc, if_true]
          rw [ih g (rest.dropWhile Char.isDigit)
            (le_trans (dropWhileLengthLe _ _) (by simp at h1 ⊢; omega))
            (le_trans (dropWhileLengthLe _ _) (by simp at h2 ⊢; omega))]
        · simp only [hc, Bool.false_eq_true, if_false]
          exact ih g rest (by simp at h1 ⊢; omega) (by simp at h2 ⊢; omega)

/-- Unfolding `digitRuns` at a digit: one maximal run comes off. -/
theorem digitRuns_cons_digit {c : Char} (rest : List Char) (hc : c.isDigit = true) :
    digitRuns (c :: rest)
      = (c :: rest.takeWhile Char.isDigit) :: digitRuns (rest.dropWhile Char.isDigit) := by
  show digitRunsF (rest.length + 1) (c :: rest) = _
  simp only [digitRunsF, hc, if_true]
  rw [digitRunsF_fuel_irrel rest.length (rest.dropWhile Char.isDigit).length
    (rest.dropWhile Char.isDigit) (dropWhileLengthLe _ _) le_rfl]
  rfl

/-- Unfolding `digitRuns` at a non-digit. -/
theorem digitRuns_cons_nondigit {c : Char} (rest : List Char) (hc : c.isDigit = false) :
    digitRuns (c :: rest) = digitRuns rest := by
  show digitRunsF (rest.length + 1) (c :: rest) = _
  simp only [digitRunsF, hc, Bool.false_eq_true, if_false]
  rfl

/-- The head of a drop-while result fails the predicate. -/
theorem dropWhile_head_not {p : Char → Bool} : ∀ (l : List Char) (x : Char) (xs : List Char),
    l.dropWhile p = x :: xs → p x = false := by
  intro l
  induction l with
  | nil => intro x xs h; cases h
  | cons a as ih =>
    intro x xs h
    by_cases hpa : p a
    · rw [List.dropWhile_cons_of_pos hpa] at h
      exact ih x xs h
    · rw [List.dropWhile_cons_of_neg hpa] at h
      cases h
      simpa using hpa

/-- A maximal digit run of at most three digits is consumed whole by the
`\d{1,3}` scan: the scans agree run by run while the runs stay short. -/
theorem digitRuns_head_to_findall : ∀ (cs : List Char) (r : List Char) (rs : List (List Char)),
    digitRuns cs = r :: rs → r.length ≤ 3 →
    ∃ cs2, findallD13 cs = r :: findallD13 cs2 ∧ digitRuns cs2 = rs := by
  intro cs
  induction cs with
  | nil =>
    intro r rs h _
    simp only [digitRuns, digitRunsF] at h
    cases h
  | cons c rest ih =>
    intro r rs hruns hlen
    by_cases hc : c.isDigit
    · rw [digitRuns_cons_digit rest hc] at hruns
      injection hruns with hr hrs
      subst hr
      refine ⟨rest.dropWhile Char.isDigit, ?_, hrs⟩
      have hdecomp : rest.takeWhile Char.isDigit ++ rest.dropWhile Char.isDigit = rest := by
        simp
      have hdw : ∀ x xs2, rest.dropWhile Char.isDigit = x :: xs2 → x.isDigit = false :=
        fun x xs2 h => dropWhile_head_not rest x xs2 h
      have htwlen : (rest.takeWhile Char.isDigit).length ≤ 2 := by
        simp at hlen
        omega
      cases htw : rest.takeWhile Char.isDigit with
      | nil =>
        have hrest : rest = rest.dropWhile Char.isDigit := by
          have h0 := hdecomp.symm
          rw [htw] at h0
          simpa using h0
        conv_lhs => rw [hrest]
        exact findallD13_run1 _ hc hdw
      | cons b tw2 =>
        have hb : b.isDigit = true := by
          have : b ∈ rest.takeWhile Char.isDigit := by
            rw [htw]
            exact List.mem_cons_self b tw2
          exact List.mem_takeWhile_imp this
        cases tw2 with
        | nil =>
          have hrest : rest = b :: rest.dropWhile Char.isDigit := by
            have h0 := hdecomp.symm
            rw [htw] at h0
            simpa using h0
          conv_lhs => rw [hrest]
          exact findallD13_run2 _ hc hb hdw
        | cons e tw3 =>
          have he : e.isDigit = true := by
            have : e ∈ rest.takeWhile Char.isDigit := by
              rw [htw]
              exact List.mem_cons_of_mem b (List.mem_cons_self e tw3)
            exact List.mem_takeWhile_imp this
          cases tw3 with
          | nil =>
            have hrest : rest = b :: e :: rest.dropWhile Char.isDigit := by
              have h0 := hdecomp.symm
              rw [htw] at h0
              simpa using h0
            conv_lhs => rw [hrest]
            exact findallD13_run3 _ hc hb he
          | cons f tw4 =>
            rw [htw] at htwlen
            simp at htwlen
    · have hcf : c.isDigit = false := by simpa using hc
      rw [digitRuns_cons_nondigit rest hcf] at hruns
      obtain ⟨cs2, h1, h2⟩ := ih r rs hruns hlen
      refine ⟨cs2, ?_, h2⟩
      rw [findallD13_cons_nondigit rest hcf]
      exact h1

/-- Claim C5 counterexample: in `"0030 180 25"` the first three integer
runs have the in-range values 30, 180 and 25, yet the parser returns
`none` — the `\d{1,3}` scan splits the four-digit run `0030` into `003`
and `0`, so the claim fails for runs longer than three digits. -/
theorem parse_wha_leading_zero_counterexample :
    digitRuns (normalize_text "0030 180 25").data
        = [['0', '0', '3', '0'], ['1', '8', '0'], ['2', '5']]
    ∧ digitsVal ['0', '0', '3', '0'] = 30
    ∧ digitsVal ['1', '8', '0'] = 180
    ∧ digitsVal ['2', '5'] = 25
    ∧ parse_weight_height_age "0030 180 25" = none :=
  ⟨rfl, rfl, rfl, rfl, rfl⟩

/-- Claim C5 (amended): for every free-text input whose first three
integer runs are each at most three digits long and satisfy the ranges
30–350, 120–230 and 10–100, the triple parser returns exactly those
three integers, regardless of the separators around them. -/
theorem parse_wha_first_three_short_runs (text : String) (r1 r2 r3 : List Char)
    (rest : List (List Char))
    (hruns : digitRuns (normalize_text text).data = r1 :: r2 :: r3 :: rest)
    (h1 : r1.length ≤ 3) (h2 : r2.length ≤ 3) (h3 : r3.length ≤ 3)
    (hw1 : 30 ≤ digitsVal r1) (hw2 : digitsVal r1 ≤ 350)
    (hh1 : 120 ≤ digitsVal r2) (hh2 : digitsVal r2 ≤ 230)
    (ha1 : 10 ≤ digitsVal r3) (ha2 : digitsVal r3 ≤ 100) :
    parse_weight_height_age text = some (digitsVal r1, digitsVal r2, digitsVal r3) := by
  obtain ⟨cs2, hf1, hr2⟩ := digitRuns_head_to_findall _ r1 _ hruns h1
  obtain ⟨cs3, hf2, hr3⟩ := digitRuns_head_to_findall _ r2 _ hr2 h2
  obtain ⟨cs4, hf3, hr4⟩ := digitRuns_head_to_findall _ r3 _ hr3 h3
  unfold parse_weight_height_age
  simp only []
  rw [show (let t := normalize_text text;
      findallD13 t.data) = findallD13 (normalize_text text).data from rfl] at *
  rw [hf1, hf2, hf3]
  simp [hw1, hw2, hh1, hh2, ha1, ha2]

/-- Witness for the amended C5 theorem: prose-embedded triple. -/
theorem parse_wha_first_three_short_runs_witness :
    parse_weight_height_age "weight 114 height 182 age 49" = some (114, 182, 49) := by
  have h := parse_wha_first_three_short_runs "weight 114 height 182 age 49"
    ['1', '1', '4'] ['1', '8', '2'] ['4', '9'] [] rfl
    (by decide) (by decide) (by decide) (by decide) (by decide)
    (by decide) (by decide) (by decide) (by decide)
  exact h

/-! ## C7 — the subscription validity check -/

/-- Claim C7: the subscription validity check returns valid/`admin` for
an admin-listed user regardless of any record; invalid/
`subscription_required` when no record decodes; invalid/
`subscription_expired` when a record's `expires_at` lies strictly before
now; and valid with the stored plan otherwise (`now ≤ expires_at`). -/
theorem check_subscription_valid_cases (env : Env) (st : Store) (userId : Int) :
    (userId ∈ env.adminIds →
        check_subscription_valid env st userId = .ok (true, .str "admin"))
    ∧ (userId ∉ env.adminIds → get_subscription st = none →
        check_subscription_valid env st userId = .ok (false, .str "subscription_required"))
    ∧ (userId ∉ env.adminIds → ∀ sub : Json, get_subscription st = some sub →
        jsonTruthy sub = true →
        ∀ (s : String) (e : Int), pyIndex sub "expires_at" = .ok (.str s) →
          fromisoformat s = some e →
          ((env.now > e →
              check_subscription_valid env st userId = .ok (false, .str "subscription_expired"))
           ∧ (¬ env.now > e → ∀ pl : Json, pyIndex sub "plan" = .ok pl →
              check_subscription_valid env st userId = .ok (true, pl)))) := by
  refine ⟨?_, ?_, ?_⟩
  · intro h
    unfold check_subscription_valid
    simp [h]
  · intro h hnone
    unfold check_subscription_valid
    simp [h, hnone]
  · intro h sub hsub htr s e hea hiso
    constructor
    · intro hgt
      unfold check_subscription_valid
      simp [h, hsub, htr, hea, hiso, hgt]
    · intro hle pl hpl
      unfold check_subscription_valid
      simp [h, hsub, htr, hea, hiso, hle, hpl]

/-- Witness for C7: a record that expired (50) before now (100) is
reported `subscription_expired`. -/
theorem check_subscription_valid_cases_witness :
    check_subscription_valid envPhoto
        (set_subscription envPhoto stProfile "basic" 50 none none) 7
      = .ok (false, .str "subscription_expired") := by
  have h := (check_subscription_valid_cases envPhoto
      (set_subscription envPhoto stProfile "basic" 50 none none) 7).2.2
    (by decide)
    (Json.obj [("plan", .str "basic"), ("expires_at", .str "50"),
      ("stripe_customer_id", .null), ("stripe_subscription_id", .null),
      ("created_at", .str "100")])
    rfl rfl "50" 50 rfl rfl
  exact h.1 (by decide)

/-! ## C6 — the photo-feature entitlement check -/

/-- Claim C6: admin-listed users are always allowed; a non-admin user
with a valid subscription on an unlimited plan (premium, trial, admin,
granted) is always allowed; a non-admin user with a valid basic (metered)
subscription is allowed exactly when today's photo count is strictly
below the daily limit, and is otherwise rejected with reason
`photo_limit_reached`. -/
theorem can_analyze_photo_spec (env : Env) (st : Store) (userId : Int) :
    (userId ∈ env.adminIds → can_analyze_photo env st userId = .ok (true, none))
    ∧ (userId ∉ env.adminIds →
        ∀ p : String, check_subscription_valid env st userId = .ok (true, .str p) →
          ((p = "premium" ∨ p = "trial" ∨ p = "admin" ∨ p = "granted" →
              can_analyze_photo env st userId = .ok (true, none))
           ∧ (p = "basic" → ∀ n : Int, get_daily_photo_count env st = .num n →
              can_analyze_photo env st userId
                = .ok (if n < env.basicDailyPhotoLimit then (true, none)
                       else (false, some (.str "photo_limit_reached")))))) := by
  constructor
  · intro h
    unfold can_analyze_photo
    simp [h]
  · intro h p hcheck
    constructor
    · intro hp
      unfold can_analyze_photo
      simp [h, hcheck]
      rcases hp with hp | hp | hp | hp <;> subst hp <;> simp
    · intro hp n hcount
      subst hp
      unfold can_analyze_photo
      simp [h, hcheck, hcount]
      by_cases hn : n < env.basicDailyPhotoLimit
      · simp [hn, not_le.2 hn]
      · simp [hn, not_lt.1 hn]

/-- Witness for C6: a valid basic user with count 0 and limit 10 is
allowed. -/
theorem can_analyze_photo_spec_witness :
    can_analyze_photo envPhoto stCompleteBasic 7 = .ok (true, none) := by
  have h := ((can_analyze_photo_spec envPhoto stCompleteBasic 7).2 (by decide)
    "basic" rfl).2 rfl 0 rfl
  simpa [envPhoto] using h

/-! ## C9 — no partial persistence on a failed triple parse -/

/-- Claim C9: when the triple parse fails, the body-metrics handler
persists none of `weight_kg`, `height_cm`, `age` — outside the reset
command the store is left untouched (and the handler stays in the same
state, re-asking), and the reset command deletes all three rather than
persisting any. -/
theorem onboarding_wha_no_partial_persist (st : Store) (text : String)
    (hfail : parse_weight_height_age text = none) :
    (is_reset_command text = false →
        (onboarding_wha st text).1 = st ∧ (onboarding_wha st text).2 = FsmState.waiting_whA)
    ∧ (is_reset_command text = true →
        get_fact (onboarding_wha st text).1 "weight_kg" = none
        ∧ get_fact (onboarding_wha st text).1 "height_cm" = none
        ∧ get_fact (onboarding_wha st text).1 "age" = none) := by
  constructor
  · intro hr
    unfold onboarding_wha
    simp [hr, hfail]
  · intro hr
    unfold onboarding_wha
    simp [hr, delete_all_facts, get_fact]

/-- Witness for C9: `"999, 181, 44"` fails the weight range check and
leaves a complete profile untouched. -/
theorem onboarding_wha_no_partial_persist_witness :
    (onboarding_wha stProfile "999, 181, 44").1 = stProfile :=
  ((onboarding_wha_no_partial_persist stProfile "999, 181, 44" rfl).1 rfl).1

/-! ## C10 — malformed stored blobs never raise -/

/-- Claim C10: an absent or undecodable `subscription` blob reads as no
record (so a non-admin is reported invalid with reason
`subscription_required`, with no exception raised), and an absent,
undecodable or stale-dated `daily_usage` blob yields a photo count of
zero. -/
theorem malformed_blob_reads (env : Env) (st : Store) (userId : Int) :
    ((get_fact st "subscription" = none → get_subscription st = none)
     ∧ (∀ blob : String, get_fact st "subscription" = some blob → jsonParse blob = none →
          get_subscription st = none))
    ∧ (userId ∉ env.adminIds → get_subscription st = none →
        check_subscription_valid env st userId = .ok (false, .str "subscription_required"))
    ∧ ((get_fact st "daily_usage" = none → get_daily_photo_count env st = .num 0)
       ∧ (∀ blob : String, get_fact st "daily_usage" = some blob → jsonParse blob = none →
            get_daily_photo_count env st = .num 0)
       ∧ (∀ (blob : String) (fs : List (String × Json)),
            get_fact st "daily_usage" = some blob → jsonParse blob = some (.obj fs) →
            (∀ d : String, objGet fs "date" = some (.str d) → d ≠ env.today) →
            get_daily_photo_count env st = .num 0)) := by
  refine ⟨⟨?_, ?_⟩, ?_, ?_, ?_, ?_⟩
  · intro h
    unfold get_subscription
    simp [h]
  · intro blob hb hp
    unfold get_subscription
    rw [hb]
    by_cases hbe : blob = "" <;> simp [hbe, hp]
  · intro h hnone
    unfold check_subscription_valid
    simp [h, hnone]
  · intro h
    unfold get_daily_photo_count
    simp [h]
  · intro blob hb hp
    unfold get_daily_photo_count
    rw [hb]
    by_cases hbe : blob = "" <;> simp [hbe, hp]
  · intro blob fs hb hp hdate
    unfold get_daily_photo_count
    rw [hb]
    have hbe : ¬ blob = "" := by
      intro he
      rw [he] at hp
      exact Option.noConfusion hp
    simp only [hbe, if_neg, hp]
    cases hd : objGet fs "date" with
    | none => simp [hd]
    | some v =>
      cases v with
      | str d => simp [hd, hdate d hd]
      | null => simp [hd]
      | bool b => simp [hd]
      | num n => simp [hd]
      | arr xs => simp [hd]
      | obj fs2 => simp [hd]

/-- A store whose subscription and usage blobs are both invalid JSON. -/
def stMalformed : Store :=
  fun k =>
    if k = "subscription" then some "\x7boops"
    else if k = "daily_usage" then some "notjson"
    else none

/-- Witness for C10 at concrete malformed blobs. -/
theorem malformed_blob_reads_witness :
    check_subscription_valid envPhoto stMalformed 5 = .ok (false, .str "subscription_required")
    ∧ get_daily_photo_count envPhoto stMalformed = .num 0 := by
  constructor
  · exact (malformed_blob_reads envPhoto stMalformed 5).2.1 (by decide)
      ((malformed_blob_reads envPhoto stMalformed 5).1.2 "\x7boops" rfl rfl)
  · exact (malformed_blob_reads envPhoto stMalformed 5).2.2.2.1 "notjson" rfl rfl

/-! ## C8 — the free-text goal classifier -/

/-- A store that only records the language `ru`. -/
def stRu : Store := set_fact Store.empty "language" "ru"

/-- Claim C8 counterexample: `"qqq"` matches no goal keyword (the code
has keyword lists only for lose and gain; maintain is the fall-through),
yet the handler does not re-ask: it persists the maintain goal value and
advances to the body-metrics state. -/
theorem goal_text_unmatched_defaults_to_maintain :
    (loseKws.any (fun x => pyContains (pyLower (normalize_text "qqq")) x)) = false
    ∧ (gainKws.any (fun x => pyContains (pyLower (normalize_text "qqq")) x)) = false
    ∧ (onboarding_goal_text stRu "qqq").1 "goal" = some "поддерживать"
    ∧ (onboarding_goal_text stRu "qqq").2 = FsmState.waiting_whA :=
  ⟨rfl, rfl, rfl, rfl⟩

/-- Writing a fact whose key is already normalised and whose value
survives stripping makes that value readable back. -/
theorem set_fact_read (st : Store) (key value : String)
    (hk : pyLower (pyStrip key) = key) (hkne : key ≠ "")
    (hv : pyStrip value = value) (hne : value ≠ "") :
    set_fact st key value key = some value := by
  unfold set_fact
  simp [hk, hv, hkne, hne]

/-- The maintain goal value of every locale is non-empty and survives
stripping. -/
theorem goal_maintain_value_strip (lang : String) :
    pyStrip (get_text_lang lang "goal_maintain_value")
        = get_text_lang lang "goal_maintain_value"
    ∧ get_text_lang lang "goal_maintain_value" ≠ "" := by
  by_cases h1 : lang = "ru"
  · subst h1; exact ⟨by decide, by decide⟩
  · by_cases h2 : lang = "cs"
    · subst h2; exact ⟨by decide, by decide⟩
    · by_cases h3 : lang = "en"
      · subst h3; exact ⟨by decide, by decide⟩
      · constructor
        · rw [show get_text_lang lang "goal_maintain_value" = "поддерживать" by
            simp [get_text_lang, TEXTS, h1, h2, h3]]
          decide
        · rw [show get_text_lang lang "goal_maintain_value" = "поддерживать" by
            simp [get_text_lang, TEXTS, h1, h2, h3]]
          decide

/-- Claim C8 (amended): on any non-reset input matching no lose and no
gain keyword, the goal handler classifies the input as the maintain
goal, persists that value, and advances to the body-metrics state — it
never reports a parse failure and never re-asks. -/
theorem goal_text_classifier_defaults (st : Store) (text : String)
    (hreset : is_reset_command text = false)
    (hlose : loseKws.any (fun x => pyContains (pyLower (normalize_text text)) x) = false)
    (hgain : gainKws.any (fun x => pyContains (pyLower (normalize_text text)) x) = false) :
    (onboarding_goal_text st text).1 "goal"
        = some (get_text_lang (orElseStr (get_fact st "language") "ru") "goal_maintain_value")
    ∧ (onboarding_goal_text st text).2 = FsmState.waiting_whA := by
  unfold onboarding_goal_text
  simp only [hreset, Bool.false_eq_true, if_false, hlose, hgain]
  refine ⟨?_, by trivial⟩
  have h := goal_maintain_value_strip (orElseStr (get_fact st "language") "ru")
  exact set_fact_read st "goal" _ (by decide) (by decide) h.1 h.2

/-- Witness for the amended C8 theorem at a concrete store and input. -/
theorem goal_text_classifier_defaults_witness :
    (onboarding_goal_text stRu "abc").1 "goal"
        = some (get_text_lang (orElseStr (get_fact stRu "language") "ru") "goal_maintain_value")
    ∧ (onboarding_goal_text stRu "abc").2 = FsmState.waiting_whA :=
  goal_text_classifier_defaults stRu "abc" rfl rfl rfl
